import Mathlib

/-!
Verification of the mixin/update-pipeline engine (`src/models/mixins.js`)
and the Order model built on it (`src/models/order.js`, the first section of
the unnamed part_002 source, together with its duplicated service-local copy
in the second section of that file).

Modelling conventions (shallow embedding of the JavaScript source):

* A JS value is `Value`; JS objects relevant here are flat records of
  string-keyed `Value`s.  The hidden symbol-keyed attachments used by the
  engine (`PREVMODEL`, the pre/post mixin sets) are modelled as separate,
  non-enumerable components of `Obj`, mirroring the fact that symbol keys
  never appear in `Object.keys` but are copied by object spread.
* Order items are records `{itemId, price}` (`OrderItem`); prices are
  rationals, standing for JS numbers (no claim here depends on
  floating-point rounding).
* Guard functions can throw; they are modelled in `Except String`, the
  error being the thrown `Error`'s message string, built exactly as the
  source builds it (JS array-to-string joins with `","` and renders
  `undefined`/`null` elements as empty strings).
* The mixin functions stored in the hidden sets are defunctionalised by the
  inductive `Mixin`: the source only ever stores (re-parameterised copies
  of) the seven guard constructors of `mixins.js`, so this is a complete
  enumeration of the functions that can occur there.
* Dynamic property keys (`Array<string | function(*):string>`) are
  defunctionalised by `PropKey`; the key-producing functions occurring in
  the Order model are `freezeOnApproval`, `freezeOnCompletion` and
  `requiredForCompletion`.  A key-function may return `undefined` or
  `null`; the result type is therefore `Option String`, and JS coercions
  are modelled where the source relies on them: property access `o[k]`
  with `k = undefined` reads the property named `"undefined"`, and array
  join renders such an element as the empty string.
-/

namespace MicroLib

/-- An order line item `{itemId, price}` (`checkItems` demands a truthy
`itemId` and a numeric `price`). -/
structure OrderItem where
  itemId : String
  price : ℚ
deriving DecidableEq, Repr

/-- JS values, restricted to the shapes the verified code manipulates:
`undefined`, `null`, booleans, numbers, strings, and arrays of order
items.  Equality on `vItems` is structural where JS `===` would be
reference equality; no verified code path compares arrays with `===`. -/
inductive Value where
  | vUndefined
  | vNull
  | vBool (b : Bool)
  | vNum (q : ℚ)
  | vStr (s : String)
  | vItems (items : List OrderItem)
deriving DecidableEq, Repr

/-- JS truthiness for the values of `Value` (arrays are always truthy,
`0`, `""`, `null` and `undefined` are falsy). -/
def truthy : Value → Bool
  | .vUndefined => false
  | .vNull => false
  | .vBool b => b
  | .vNum q => decide (q ≠ 0)
  | .vStr s => decide (s ≠ "")
  | .vItems _ => true

/-- `typeof` for `Value` (arrays and `null` are `"object"`). -/
def jsTypeof : Value → String
  | .vUndefined => "undefined"
  | .vNull => "object"
  | .vBool _ => "boolean"
  | .vNum _ => "number"
  | .vStr _ => "string"
  | .vItems _ => "object"

/-- The two mixin phases (`mixinType` in `mixins.js`); the invalid-type
branch of `updateMixins` is unrepresentable in this typed embedding. -/
inductive MixinType where
  | pre
  | post
deriving DecidableEq, Repr

/-- Defunctionalised dynamic property keys: a literal name, or one of the
key-producing functions of the Order model (`order.js`). -/
inductive PropKey where
  | lit (k : String)
  | freezeOnApproval (k : String)
  | freezeOnCompletion (k : String)
  | requiredForCompletion (k : String)
deriving DecidableEq, Repr

/-- Defunctionalised `isValid` callbacks of validation specs.  The Order
model file (`order.js`) and its duplicated copy both install a
`statusChangeValid`; they differ in their illegal-edge tables (see
`invalidStatusChanges` and `invalidStatusChangesDup`). -/
inductive ValidFn where
  | statusChangeValid
  | statusChangeValidDup
deriving DecidableEq, Repr

/-- A validation spec (`validation` typedef in `mixins.js`): a conjunction
of independently togglable checks, each skipped when absent.  The `regex`
check is not modelled: neither of the Order model's validation specs
enables it. -/
structure Validation where
  propKey : String
  isValid : Option ValidFn := none
  values : Option (List Value) := none
  typeOf : Option String := none
  maxnum : Option ℚ := none
  maxlen : Option Nat := none
deriving DecidableEq, Repr

/-- Defunctionalised updater callbacks (`updater.update`): the only one in
the source recomputes `orderTotal` from the proposed `orderItems`. -/
inductive UpdaterFn where
  | recalcTotal
deriving DecidableEq, Repr

/-- An updater spec `{propKey, update}` consumed by `updateProperties`. -/
structure Updater where
  propKey : String
  update : UpdaterFn
deriving DecidableEq, Repr

/-- Defunctionalised mixin functions: exactly the (re-parameterised)
guards of `mixins.js` that can be stored in a hidden mixin set. -/
inductive Mixin where
  | requireProps (keys : List PropKey)
  | freezeProps (isUpdate : Bool) (keys : List PropKey)
  | allowProps (isUpdate : Bool) (keys : List PropKey)
  | validateProps (specs : List Validation)
  | updateProps (isUpdate : Bool) (updaters : List Updater)
  | encryptProps (keys : List PropKey)
  | hashPwds (keys : List PropKey)
deriving DecidableEq, Repr

/-- A JS object as the engine sees it: enumerable string-keyed `fields`
(in insertion order, no duplicate keys ever arise), plus the hidden
symbol-keyed attachments: the `PREVMODEL` back-reference and the pre/post
mixin sets.  A mixin set is an insertion-ordered map from `Function.name`
to the stored mixin; `none` models the symbol key being absent (the
source distinguishes absence via `o[mixinSets[type]] || new Map()` and
`model[PREMIXINS] ? ... : ...`). -/
inductive Obj where
  | mk (fields : List (String × Value))
       (prev : Option Obj)
       (preMixins : Option (List (String × Mixin)))
       (postMixins : Option (List (String × Mixin)))

/-- Enumerable fields of an object. -/
def Obj.fields : Obj → List (String × Value)
  | .mk f _ _ _ => f

/-- The hidden `PREVMODEL` back-reference. -/
def Obj.prev : Obj → Option Obj
  | .mk _ p _ _ => p

/-- The hidden pre-phase mixin set. -/
def Obj.preMixins : Obj → Option (List (String × Mixin))
  | .mk _ _ s _ => s

/-- The hidden post-phase mixin set. -/
def Obj.postMixins : Obj → Option (List (String × Mixin))
  | .mk _ _ _ s => s

/-- The mixin set of a phase (`o[mixinSets[type]]`). -/
def Obj.phaseSet (o : Obj) : MixinType → Option (List (String × Mixin))
  | .pre => o.preMixins
  | .post => o.postMixins

/-- Replace the fields, keeping the hidden attachments. -/
def Obj.withFields : Obj → List (String × Value) → Obj
  | .mk _ p a b, f => .mk f p a b

/-- `Object.keys(o)`: enumerable string keys only (symbol keys such as
`PREVMODEL` and the mixin sets never appear). -/
def objKeys (o : Obj) : List String :=
  o.fields.map Prod.fst

/-- Property read `o[k]`: `undefined` when the key is absent. -/
def getField (o : Obj) (k : String) : Value :=
  (o.fields.lookup k).getD .vUndefined

/-- `changes[PREVMODEL] = model` (`processUpdate` line 59). -/
def setPrev : Obj → Obj → Obj
  | .mk f _ a b, m => .mk f (some m) a b

/-- `o[PREVMODEL].orderStatus`.  When no predecessor is attached the JS
expression is a `TypeError`; `processUpdate` always attaches one first,
and every theorem below supplies one, so the total model's `vUndefined`
default is never relied upon. -/
def prevOrderStatus (o : Obj) : Value :=
  match o.prev with
  | some p => getField p "orderStatus"
  | none => .vUndefined

/-- `o[PREVMODEL]?.orderStatus` with optional chaining (used by
`statusChangeValid`): `undefined` when no predecessor is attached. -/
def prevOrderStatusOpt (o : Obj) : Value :=
  match o.prev with
  | some p => getField p "orderStatus"
  | none => .vUndefined

/-- JS property access coerces a non-string key: `o[undefined]` reads the
property named `"undefined"`. -/
def keyLookup : Option String → String
  | some k => k
  | none => "undefined"

/-- JS array-to-string (template-literal interpolation of an array):
elements joined with `","`, `undefined`/`null` elements rendered as the
empty string. -/
def renderKeys (ks : List (Option String)) : String :=
  String.intercalate "," (ks.map (fun k => k.getD ""))

/-- `freezeOnApproval` (order.js): the key is frozen unless the previous
snapshot's status is `PENDING`; returns `null` otherwise. -/
def evalFreezeOnApproval (o : Obj) (k : String) : Option String :=
  if prevOrderStatus o = .vStr "PENDING" then none else some k

/-- `freezeOnCompletion` (order.js): the key is frozen when the previous
snapshot's status is `COMPLETE` or `CANCELED`. -/
def evalFreezeOnCompletion (o : Obj) (k : String) : Option String :=
  if prevOrderStatus o = .vStr "COMPLETE" ∨ prevOrderStatus o = .vStr "CANCELED"
  then some k else none

/-- `requiredForCompletion` (order.js): no key when `o.orderStatus` is
falsy; the key when the proposed status is `COMPLETE`; `undefined`
(`void 0`) otherwise.  Both escape branches produce `undefined`, not the
absence of a list element — `getDynamicProps` keeps the slot. -/
def evalRequiredForCompletion (o : Obj) (k : String) : Option String :=
  if truthy (getField o "orderStatus") = false then none
  else if getField o "orderStatus" = .vStr "COMPLETE" then some k
  else none

/-- Resolve one dynamic property key against `o`. -/
def evalPropKey (o : Obj) : PropKey → Option String
  | .lit k => some k
  | .freezeOnApproval k => evalFreezeOnApproval o k
  | .freezeOnCompletion k => evalFreezeOnCompletion o k
  | .requiredForCompletion k => evalRequiredForCompletion o k

/-- `getDynamicProps(o, ...propKeys)` (`mixins.js` lines 106-108): run the
key functions and keep every result, including `undefined`/`null` ones. -/
def getDynamicProps (o : Obj) (propKeys : List PropKey) : List (Option String) :=
  propKeys.map (evalPropKey o)

/-- Write a phase's mixin set back onto the object (the `{...o,
[mixinSets[type]]: mixinSet}` spread of `updateMixins`). -/
def Obj.withPhase : Obj → MixinType → Option (List (String × Mixin)) → Obj
  | .mk f p _ b, .pre, s => .mk f p s b
  | .mk f p a _, .post, s => .mk f p a s

/-- `updateMixins` (`mixins.js` lines 81-97): attach the mixin under
`name` into the phase's set unless a mixin of that name is already
present (idempotent attach); a fresh empty set is created when the phase
key is absent. -/
def updateMixins (ty : MixinType) (o : Obj) (name : String) (m : Mixin) : Obj :=
  let mixinSet := (o.phaseSet ty).getD []
  if (mixinSet.lookup name).isSome then o
  else o.withPhase ty (some (mixinSet ++ [(name, m)]))

/-! ## The guard library (`mixins.js`) -/

/-- `requireProperties` (`mixins.js` lines 174-181): resolve the keys,
collect every key whose value on `o` is falsy (an `undefined` key
resulting from a key-function's escape branch is looked up as
`o["undefined"]`), and throw listing them; otherwise return `o`
unchanged.  Note: this guard does not call `updateMixins`. -/
def requireProperties (propKeys : List PropKey) (o : Obj) : Except String Obj :=
  let keys := getDynamicProps o propKeys
  let missing := keys.filter (fun k => truthy (getField o (keyLookup k)) = false)
  if missing.length > 0 then
    .error ("missing required properties: " ++ renderKeys missing)
  else
    .ok o

/-- `freezeProperties` (`mixins.js` lines 144-167): on update calls,
throw if any enumerable key of the (changes) object matches a resolved
frozen key (a `null` from a key-function matches nothing); then register
the update-mode copy of itself in the pre phase. -/
def freezeProperties (isUpdate : Bool) (propKeys : List PropKey) (o : Obj) :
    Except String Obj :=
  let keys := getDynamicProps o propKeys
  let mutations := (objKeys o).filter (fun k => keys.contains (some k))
  if isUpdate ∧ mutations.length > 0 then
    .error ("cannot update readonly properties: " ++ String.intercalate "," mutations)
  else
    .ok (updateMixins .pre o "freezeProperties" (.freezeProps true propKeys))

/-- `internalPropList` (`mixins.js` line 211) is the empty list. -/
def internalPropList : List String := []

/-- `allowProperties` (`mixins.js` lines 218-241): on update calls, throw
if the object carries any enumerable key outside the allow-list extended
by `internalPropList`; then register the update-mode copy of itself. -/
def allowProperties (isUpdate : Bool) (propKeys : List PropKey) (o : Obj) :
    Except String Obj :=
  let keys := getDynamicProps o propKeys
  let allowList := keys ++ internalPropList.map some
  let unknownProps := (objKeys o).filter (fun k => allowList.contains (some k) = false)
  if isUpdate ∧ unknownProps.length > 0 then
    .error ("invalid properties: " ++ String.intercalate "," unknownProps)
  else
    .ok (updateMixins .pre o "allowProperties" (.allowProps true propKeys))

/-! ### The Order model's item helpers (`order.js`) -/

/-- `checkItems` (order.js lines 34-49): reject falsy input, wrap a
non-array (such a value then fails the item-shape test, having neither
`itemId` nor `price`), and accept a non-empty array whose items all have
a truthy `itemId` and a numeric `price` (the latter holds of every
`OrderItem` by construction). -/
def checkItems (items : Value) : Except String (List OrderItem) :=
  if truthy items = false then .error "order contains no items"
  else
    match items with
    | .vItems l =>
        if 0 < l.length ∧ l.all (fun i => i.itemId ≠ "") then .ok l
        else .error "order items invalid"
    | _ => .error "order items invalid"

/-- Sum of the items' prices, folded exactly as the source's
`reduce((total, item) => total += item.price, 0)`. -/
def sumPrices (l : List OrderItem) : ℚ :=
  l.foldl (fun total item => total + item.price) 0

/-- `calcTotal` (order.js lines 51-56). -/
def calcTotal (items : Value) : Except String ℚ := do
  let l ← checkItems items
  pure (sumPrices l)

/-! ### Validation (`mixins.js` lines 281-333) -/

/-- The illegal status edges of the Order model file (order.js lines
102-113), as `(from, to)` pairs.  The third entry transcribes the
source's `invalidStatusChange(OrderStatus.SHIPPING, orderStatus.APPROVED)`:
`orderStatus` there is the string constant `'orderStatus'`, whose
`APPROVED` property is `undefined`, so the edge's target is `undefined`,
not `'APPROVED'`. -/
def invalidStatusChanges : List (Value × Value) :=
  [(.vStr "APPROVED", .vStr "PENDING"),
   (.vStr "SHIPPING", .vStr "PENDING"),
   (.vStr "SHIPPING", .vUndefined),
   (.vStr "PENDING", .vStr "SHIPPING"),
   (.vStr "PENDING", .vStr "COMPLETE")]

/-- The illegal status edges of the duplicated service-local copy
(part_002 second section, lines 446-457), where the third entry reads
`OrderStatus.APPROVED`. -/
def invalidStatusChangesDup : List (Value × Value) :=
  [(.vStr "APPROVED", .vStr "PENDING"),
   (.vStr "SHIPPING", .vStr "PENDING"),
   (.vStr "SHIPPING", .vStr "APPROVED"),
   (.vStr "PENDING", .vStr "SHIPPING"),
   (.vStr "PENDING", .vStr "COMPLETE")]

/-- `invalidStatusChange(from, to)` applied to one candidate edge:
`propVal === to && o[PREVMODEL].orderStatus === from`. -/
def invalidStatusChange (edge : Value × Value) (o : Obj) (propVal : Value) : Bool :=
  propVal = edge.2 ∧ prevOrderStatus o = edge.1

/-- `statusChangeValid` parameterised by the edge table: valid when the
predecessor has no truthy status; otherwise throw on any matching edge. -/
def statusChangeValidWith (edges : List (Value × Value)) (o : Obj) (propVal : Value) :
    Except String Bool :=
  if truthy (prevOrderStatusOpt o) = false then .ok true
  else if edges.any (fun e => invalidStatusChange e o propVal) then
    .error "invalid status change"
  else .ok true

/-- `statusChangeValid` of the Order model file (order.js lines 118-125). -/
def statusChangeValid : Obj → Value → Except String Bool :=
  statusChangeValidWith invalidStatusChanges

/-- `statusChangeValid` of the duplicated service-local copy (part_002
second section, lines 462-470). -/
def statusChangeValidDup : Obj → Value → Except String Bool :=
  statusChangeValidWith invalidStatusChangesDup

/-- Run a defunctionalised `isValid` callback. -/
def runValidFn : ValidFn → Obj → Value → Except String Bool
  | .statusChangeValid, o, propVal => statusChangeValid o propVal
  | .statusChangeValidDup, o, propVal => statusChangeValidDup o propVal

/-- The `maxnum` test `v > propVal` (`mixins.js` line 287).  A number
compares numerically; booleans and `null` coerce to numbers; a
relational comparison against `undefined` or (non-numeric) string/array
operands is false.  The Order model only ever validates the numeric
`orderTotal` with it. -/
def maxnumTest (v : ℚ) : Value → Bool
  | .vNum q => decide (q < v)
  | .vBool b => decide ((if b then (1 : ℚ) else 0) < v)
  | .vNull => decide ((0 : ℚ) < v)
  | _ => false

/-- The `maxlen` test `v > propVal.length` (`mixins.js` line 288):
strings and arrays have a `length`; on other values `propVal.length` is
`undefined` and the comparison is false. -/
def maxlenTest (v : Nat) : Value → Bool
  | .vStr s => decide (s.length < v)
  | .vItems l => decide (l.length < v)
  | _ => false

/-- `validator.isValid` (`mixins.js` lines 297-305): every enabled check
of the spec must pass, iterated in the declaration order of
`validator.tests` (`isValid`, `values`, `typeof`, `maxnum`, `maxlen`;
`regex` is never enabled by the Order model); `Array.every`
short-circuits on the first failing check, and a throwing `isValid`
callback propagates. -/
def validatorIsValid (v : Validation) (o : Obj) (propVal : Value) :
    Except String Bool := do
  let okIsValid ← match v.isValid with
    | some f => runValidFn f o propVal
    | none => pure true
  if okIsValid = false then return false
  let okValues := match v.values with
    | some vs => vs.contains propVal
    | none => true
  if okValues = false then return false
  let okTypeof := match v.typeOf with
    | some t => t = jsTypeof propVal
    | none => true
  if okTypeof = false then return false
  let okMaxnum := match v.maxnum with
    | some m => maxnumTest m propVal
    | none => true
  if okMaxnum = false then return false
  let okMaxlen := match v.maxlen with
    | some m => maxlenTest m propVal
    | none => true
  return okMaxlen

/-- The filtering pass of `validateProperties` (`mixins.js` lines
313-319): collect, in spec order, every spec whose target value is
present (truthy) on `o` and fails its checks; a throw inside the
`isValid` callback propagates out of the filter. -/
def collectInvalid (o : Obj) : List Validation → Except String (List String)
  | [] => pure []
  | v :: rest => do
      let propVal := getField o v.propKey
      let bad ←
        if truthy propVal = false then pure false
        else do
          let ok ← validatorIsValid v o propVal
          pure (!ok)
      let restBad ← collectInvalid o rest
      pure (if bad then v.propKey :: restBad else restBad)

/-- `validateProperties` (`mixins.js` lines 312-333): throw naming every
invalid spec's key, else register itself in the post phase. -/
def validateProperties (validations : List Validation) (o : Obj) :
    Except String Obj := do
  let invalid ← collectInvalid o validations
  if invalid.length > 0 then
    .error ("invalid value for " ++ String.intercalate "," invalid)
  else
    .ok (updateMixins .post o "validateProperties" (.validateProps validations))

/-! ### Derived updates, encryption and hashing -/

/-- Shallow merge of field lists, the right operand winning on key
collision and its genuinely new keys appended in order — the semantics
of `{...base, ...upd}` on enumerable string keys. -/
def mergeFields (base upd : List (String × Value)) : List (String × Value) :=
  base.map (fun kv => (kv.1, (upd.lookup kv.1).getD kv.2)) ++
    upd.filter (fun kv => (base.lookup kv.1).isNone)

/-- `recalcTotal` (the Order model's single updater): a partial object
`{orderTotal: calcTotal(propVal)}`. -/
def runUpdaterFn : UpdaterFn → Obj → Value → Except String (List (String × Value))
  | .recalcTotal, _, propVal => do
      let t ← calcTotal propVal
      pure [("orderTotal", .vNum t)]

/-- The mapping-and-merging pass of `updateProperties`' `updateProps`
(`mixins.js` lines 355-359): run each triggered updater left-to-right (a
throw propagates) and shallow-merge the returned partial objects, later
updaters winning (`reduce((p, c) => ({...p, ...c}))`). -/
def applyUpdaters (o : Obj) : List Updater → Except String (List (String × Value))
  | [] => pure []
  | u :: rest => do
      let part ← runUpdaterFn u.update o (getField o u.propKey)
      let restParts ← applyUpdaters o rest
      pure (mergeFields part restParts)

/-- `updateProperties` (`mixins.js` lines 352-376): on update calls, run
the updater of every spec whose `propKey` is truthy on `o`; register the
update-mode copy of itself; the merged partials override the object's
fields (`{...mixins, ...updateProps()}`). -/
def updateProperties (isUpdate : Bool) (updaters : List Updater) (o : Obj) :
    Except String Obj := do
  let updates ←
    if isUpdate then
      applyUpdaters o (updaters.filter (fun u => truthy (getField o u.propKey)))
    else pure []
  let mixins := updateMixins .pre o "updateProperties" (.updateProps true updaters)
  pure (mixins.withFields (mergeFields mixins.fields updates))

/-- Modelled from the spec: `encrypt` lives in `src/models/utils.js`,
which is not in the source tree; the spec treats it as an opaque external
transform ("cryptographic hash/encrypt primitives ... only their call
contracts matter"), so it is modelled as a fixed value transform. -/
def encryptVal (_ : Value) : Value := .vStr "ciphertext"

/-- Modelled from the spec: `hash` (also from the missing
`src/models/utils.js`), modelled as a fixed value transform. -/
def hashVal (_ : Value) : Value := .vStr "hashed"

/-- The partial object built by `encryptProperties`/`hashPasswords`:
`keys.map(key => o[key] ? {[key]: f(o[key])} : {}).reduce((p, c) =>
({...c, ...p}))` — one singleton per present key, reduced with the
accumulator winning; `reduce` on an empty array (no keys) throws a
`TypeError`. -/
def transformProps (f : Value → Value) (keys : List (Option String)) (o : Obj) :
    Except String (List (String × Value)) :=
  match keys.map (fun k =>
      if truthy (getField o (keyLookup k)) then
        [(keyLookup k, f (getField o (keyLookup k)))]
      else []) with
  | [] => .error "Reduce of empty array with no initial value"
  | first :: rest => .ok (rest.foldl (fun p c => mergeFields c p) first)

/-- `encryptProperties` (`mixins.js` lines 115-136): register itself in
the pre phase and overwrite each present listed key with its encrypted
value. -/
def encryptProperties (propKeys : List PropKey) (o : Obj) : Except String Obj := do
  let keys := getDynamicProps o propKeys
  let encrypted ← transformProps encryptVal keys o
  let mixins := updateMixins .pre o "encryptProperties" (.encryptProps propKeys)
  pure (mixins.withFields (mergeFields mixins.fields encrypted))

/-- `hashPasswords` (`mixins.js` lines 188-209): register itself in the
pre phase and overwrite each present listed key with its hashed value. -/
def hashPasswords (propKeys : List PropKey) (o : Obj) : Except String Obj := do
  let keys := getDynamicProps o propKeys
  let hashed ← transformProps hashVal keys o
  let mixins := updateMixins .pre o "hashPasswords" (.hashPwds propKeys)
  pure (mixins.withFields (mergeFields mixins.fields hashed))

/-! ## The update pipeline (`processUpdate`, `mixins.js` lines 58-70) -/

/-- Dispatch a stored (defunctionalised) mixin. -/
def runMixin : Mixin → Obj → Except String Obj
  | .requireProps keys, o => requireProperties keys o
  | .freezeProps b keys, o => freezeProperties b keys o
  | .allowProps b keys, o => allowProperties b keys o
  | .validateProps specs, o => validateProperties specs o
  | .updateProps b us, o => updateProperties b us o
  | .encryptProps keys, o => encryptProperties keys o
  | .hashPwds keys, o => hashPasswords keys o

/-- Modelled from the spec: `compose` lives in the missing
`src/models/utils.js`; the spec fixes its behaviour ("compose all its
descriptors' functions left-to-right (each consumes the previous one's
output) ... Composition order = insertion order into the set"), so a
mixin set runs left-to-right in insertion order, a throw aborting the
chain. -/
def composeMixins : List (String × Mixin) → Obj → Except String Obj
  | [], o => .ok o
  | nm :: rest, o => do
      let o' ← runMixin nm.2 o
      composeMixins rest o'

/-- Shallow merge `{...model, ...updates}` of whole objects: fields merge
with `updates` winning; the hidden symbol-keyed attachments of `updates`
(its own `PREVMODEL` and any mixin set it acquired during the pre phase)
likewise override the model's when present. -/
def mergeObjs (model updates : Obj) : Obj :=
  .mk (mergeFields model.fields updates.fields)
      (updates.prev <|> model.prev)
      (updates.preMixins <|> model.preMixins)
      (updates.postMixins <|> model.postMixins)

/-- Step 2 of `processUpdate`: run the model's pre-phase set over the
changes, or pass them through when the model carries none. -/
def preUpdates (model changes : Obj) : Except String Obj :=
  match model.preMixins with
  | some ms => composeMixins ms changes
  | none => .ok changes

/-- Step 4 of `processUpdate`: run the model's post-phase set over the
merged object, or return it as-is. -/
def postPhase (model updated : Obj) : Except String Obj :=
  match model.postMixins with
  | some ms => composeMixins ms updated
  | none => .ok updated

/-- `processUpdate` (`mixins.js` lines 58-70): attach the history
pointer, run the pre phase over the changes, shallow-merge onto the
model, run the post phase over the merged result. -/
def processUpdate (model changes : Obj) : Except String Obj := do
  let changes' := setPrev changes model
  let updates ← preUpdates model changes'
  let updated := mergeObjs model updates
  postPhase model updated

/-! ## The Order model configuration (order.js) -/

/-- `MAXORDER` (order.js line 14), the literal `99999.99`, written as an
explicitly normalised rational so that concrete runs of the validator
reduce inside the kernel (`Rat.ofScientific` is irreducible); the theorem
`MAXORDER_eq` below certifies it equals the source's decimal literal. -/
def MAXORDER : ℚ := mkRat 9999999 100

/-- `Object.values(OrderStatus)` in declaration order (order.js lines
26-32). -/
def orderStatusValues : List Value :=
  [.vStr "PENDING", .vStr "APPROVED", .vStr "SHIPPING",
   .vStr "COMPLETE", .vStr "CANCELED"]

/-- The argument list of the Order's `requirePropertiesMixin` (order.js
lines 239-246). -/
def orderRequiredKeys : List PropKey :=
  [.lit "customerInfo", .lit "orderItems", .lit "creditCardNumber",
   .lit "shippingAddress", .lit "billingAddress",
   .requiredForCompletion "proofOfDelivery"]

/-- The argument list of the Order's `freezePropertiesMixin` (order.js
lines 247-254): `customerInfo` is a literal, unconditional key; the four
payment/fulfilment fields are conditioned on approval, `orderStatus` on
completion. -/
def orderFreezeKeys : List PropKey :=
  [.lit "customerInfo", .freezeOnApproval "orderItems",
   .freezeOnApproval "creditCardNumber", .freezeOnApproval "shippingAddress",
   .freezeOnApproval "billingAddress", .freezeOnCompletion "orderStatus"]

/-- The Order's updater specs (order.js lines 255-263): recompute
`orderTotal` whenever `orderItems` is among the proposed changes. -/
def orderUpdaters : List Updater :=
  [⟨"orderItems", .recalcTotal⟩]

/-- The Order's validation specs (order.js lines 264-274). -/
def orderValidations : List Validation :=
  [{ propKey := "orderStatus",
     values := some orderStatusValues,
     isValid := some .statusChangeValid },
   { propKey := "orderTotal", maxnum := some MAXORDER }]

/-- The argument list of the Order's `allowPropertiesMixin` (order.js
lines 275-286). -/
def orderAllowKeys : List PropKey :=
  [.lit "orderItems", .lit "customerInfo", .lit "shippingAddress",
   .lit "billingAddress", .lit "proofOfDelivery", .lit "creditCardNumber",
   .lit "paymentAuthorization", .lit "signatureRequired", .lit "orderStatus",
   .lit "orderTotal"]

/-- The pre-phase mixin set an Order snapshot carries once the model
spec's mixins (order.js lines 238-287) have self-registered, in the
spec's array order: `requirePropertiesMixin` registers nothing;
`freezeProperties`, `updateProperties` and `allowProperties` register
their update-mode copies; `validateProperties` registers in the post
phase. -/
def orderPreMixins : List (String × Mixin) :=
  [("freezeProperties", .freezeProps true orderFreezeKeys),
   ("updateProperties", .updateProps true orderUpdaters),
   ("allowProperties", .allowProps true orderAllowKeys)]

/-- The post-phase mixin set of an Order snapshot. -/
def orderPostMixins : List (String × Mixin) :=
  [("validateProperties", .validateProps orderValidations)]

/-- The data fields of the object returned by the Order factory's
`createOrder` (order.js lines 189-236), in the source's insertion order.
The method closures (`completePayment`, `shipOrder`, ...) are behaviour,
not data, and are omitted; `shipAddr`, `payAuth` and `orderNo` stand for
the awaited results of the external `validateAddress`/`authorizePayment`
adapters and of `uuid()`.  The factory's `checkFormat(creditCardNumber,
'creditCard')` call only builds a closure it never invokes (and
`checkFormat` is not among `mixins.js`'s exports), so it contributes
nothing to the returned data. -/
def createOrderFields (custInfo items ccn billAddr sigRequired shipAddr payAuth
    orderNo : Value) : Except String (List (String × Value)) := do
  let _ ← checkItems items
  let total ← calcTotal items
  pure [("customerInfo", custInfo), ("orderItems", items),
        ("creditCardNumber", ccn), ("billingAddress", billAddr),
        ("signatureRequired", sigRequired), ("proofOfDelivery", .vNull),
        ("shippingAddress", shipAddr), ("paymentAuthorization", payAuth),
        ("orderTotal", .vNum total), ("orderStatus", .vStr "PENDING"),
        ("orderNo", orderNo)]

end MicroLib

namespace MicroLib

/-- A minimal sample object (one truthy field `x`, no predecessor, no
mixin sets) used by the registration theorems. -/
def xObj : Obj := .mk [("x", .vStr "1")] none none none

/-- A bare predecessor snapshot carrying only an `orderStatus`. -/
def prevWith (s : String) : Obj := .mk [("orderStatus", .vStr s)] none none none

/-- A changes object carrying no fields whose predecessor is `prevWith s`
(the shape `statusChangeValid` inspects: only the hidden back-reference
matters to it). -/
def withPrev (s : String) : Obj := .mk [] (some (prevWith s)) none none

end MicroLib

namespace MicroLib

/-! ## Helper lemmas -/

theorem mergeFields_nil (b : List (String × Value)) : mergeFields b [] = b := by
  simp [mergeFields]

theorem lookup_append (l1 l2 : List (String × Value)) (k : String) :
    List.lookup k (l1 ++ l2) = ((List.lookup k l1).or (List.lookup k l2)) := by
  induction l1 with
  | nil => simp
  | cons hd tl ih =>
      by_cases h : k = hd.1
      · simp [List.lookup, h]
      · have hne : (k == hd.1) = false := by simpa using h
        simp [List.lookup, hne, ih]

theorem lookup_map_merge (b u : List (String × Value)) (k : String) :
    List.lookup k (b.map (fun kv => (kv.1, (u.lookup kv.1).getD kv.2))) =
      (b.lookup k).map (fun v => (u.lookup k).getD v) := by
  induction b with
  | nil => simp
  | cons hd tl ih =>
      by_cases h : k = hd.1
      · subst h
        simp [List.lookup]
      · have hne : (k == hd.1) = false := by simpa using h
        simp [List.lookup, hne, ih]

theorem lookup_filter_none (b u : List (String × Value)) (k : String)
    (h : b.lookup k = none) :
    List.lookup k (u.filter (fun kv => (b.lookup kv.1).isNone)) = u.lookup k := by
  induction u with
  | nil => simp
  | cons hd tl ih =>
      by_cases hk : k = hd.1
      · subst hk
        simp [List.filter, h, List.lookup]
      · have hne : (k == hd.1) = false := by simpa using hk
        by_cases hb : (List.lookup hd.1 b).isNone
        · simp [List.filter, hb, List.lookup, hne, ih]
        · simp only [List.filter, hb]
          simp [List.lookup, hne, ih]

theorem lookup_mergeFields (b u : List (String × Value)) (k : String) :
    (mergeFields b u).lookup k = ((u.lookup k).or (b.lookup k)) := by
  unfold mergeFields
  rw [lookup_append, lookup_map_merge]
  cases hb : b.lookup k with
  | some v =>
      cases hu : u.lookup k <;> simp [hu]
  | none =>
      simp [lookup_filter_none b u k hb]

theorem updateMixins_fields (ty : MixinType) (o : Obj) (n : String) (m : Mixin) :
    (updateMixins ty o n m).fields = o.fields := by
  cases o
  cases ty <;> (simp only [updateMixins]; split <;> rfl)

theorem updateMixins_prev (ty : MixinType) (o : Obj) (n : String) (m : Mixin) :
    (updateMixins ty o n m).prev = o.prev := by
  cases o
  cases ty <;> (simp only [updateMixins]; split <;> rfl)

theorem updateMixins_pre_postMixins (o : Obj) (n : String) (m : Mixin) :
    (updateMixins .pre o n m).postMixins = o.postMixins := by
  cases o
  simp only [updateMixins]
  split <;> rfl

theorem setPrev_fields (o m : Obj) : (setPrev o m).fields = o.fields := by
  cases o; rfl

theorem setPrev_prev (o m : Obj) : (setPrev o m).prev = some m := by
  cases o; rfl

theorem setPrev_preMixins (o m : Obj) : (setPrev o m).preMixins = o.preMixins := by
  cases o; rfl

theorem setPrev_postMixins (o m : Obj) : (setPrev o m).postMixins = o.postMixins := by
  cases o; rfl

theorem updateMixins_post_preMixins (o : Obj) (n : String) (m : Mixin) :
    (updateMixins .post o n m).preMixins = o.preMixins := by
  cases o
  simp only [updateMixins]
  split <;> rfl

theorem freezeProperties_ok {keys : List PropKey} {o o' : Obj}
    (h : freezeProperties true keys o = .ok o') :
    o'.fields = o.fields ∧ o'.prev = o.prev ∧ o'.postMixins = o.postMixins ∧
      ∀ k ∈ objKeys o, (getDynamicProps o keys).contains (some k) = false := by
  simp only [freezeProperties] at h
  split at h
  · cases h
  · rename_i hcond
    cases h
    refine ⟨updateMixins_fields .., updateMixins_prev .., updateMixins_pre_postMixins .., ?_⟩
    intro k hk
    by_contra hmem
    simp only [Bool.not_eq_false] at hmem
    have : k ∈ (objKeys o).filter (fun k => (getDynamicProps o keys).contains (some k)) :=
      List.mem_filter.mpr ⟨hk, hmem⟩
    exact hcond ⟨by trivial, List.length_pos.mpr (List.ne_nil_of_mem this)⟩

theorem freezeProperties_error {keys : List PropKey} {o : Obj} {k : String}
    (hk : k ∈ objKeys o)
    (hmem : (getDynamicProps o keys).contains (some k) = true) :
    ∃ muts, freezeProperties true keys o =
        .error ("cannot update readonly properties: " ++ String.intercalate "," muts) ∧
      k ∈ muts := by
  refine ⟨(objKeys o).filter (fun k => (getDynamicProps o keys).contains (some k)), ?_, ?_⟩
  · have hx : k ∈ (objKeys o).filter (fun k => (getDynamicProps o keys).contains (some k)) :=
      List.mem_filter.mpr ⟨hk, hmem⟩
    simp only [freezeProperties]
    rw [if_pos ⟨by trivial, List.length_pos.mpr (List.ne_nil_of_mem hx)⟩]
  · exact List.mem_filter.mpr ⟨hk, hmem⟩

theorem allowProperties_ok {keys : List PropKey} {o o' : Obj}
    (h : allowProperties true keys o = .ok o') :
    o'.fields = o.fields ∧ o'.prev = o.prev ∧ o'.postMixins = o.postMixins := by
  simp only [allowProperties] at h
  split at h
  · cases h
  · cases h
    exact ⟨updateMixins_fields .., updateMixins_prev .., updateMixins_pre_postMixins ..⟩

theorem validateProperties_ok {specs : List Validation} {o o' : Obj}
    (h : validateProperties specs o = .ok o') :
    o'.fields = o.fields ∧ o'.prev = o.prev ∧ o'.preMixins = o.preMixins := by
  unfold validateProperties at h
  cases hc : collectInvalid o specs with
  | error e => rw [hc] at h; cases h
  | ok invalid =>
      rw [hc] at h
      simp only [bind, Except.bind] at h
      split at h
      · cases h
      · cases h
        exact ⟨updateMixins_fields .., updateMixins_prev .., updateMixins_post_preMixins ..⟩

theorem withFields_fields (o : Obj) (f : List (String × Value)) :
    (o.withFields f).fields = f := by
  cases o; rfl

theorem withFields_prev (o : Obj) (f : List (String × Value)) :
    (o.withFields f).prev = o.prev := by
  cases o; rfl

theorem withFields_preMixins (o : Obj) (f : List (String × Value)) :
    (o.withFields f).preMixins = o.preMixins := by
  cases o; rfl

theorem withFields_postMixins (o : Obj) (f : List (String × Value)) :
    (o.withFields f).postMixins = o.postMixins := by
  cases o; rfl

theorem applyUpdaters_recalc_lookup {o : Obj} {us : List Updater}
    {upd : List (String × Value)}
    (hus : ∀ u ∈ us, u.update = .recalcTotal)
    (h : applyUpdaters o us = .ok upd) :
    ∀ k, k ≠ "orderTotal" → upd.lookup k = none := by
  induction us generalizing upd with
  | nil =>
      simp only [applyUpdaters, pure, Except.pure, Except.ok.injEq] at h
      subst h
      intro k _
      rfl
  | cons u rest ih =>
      have hu : u.update = .recalcTotal := hus u (List.mem_cons_self ..)
      simp only [applyUpdaters, hu, runUpdaterFn, bind, Except.bind] at h
      cases hc : calcTotal (getField o u.propKey) with
      | error e =>
          rw [hc] at h
          cases h
      | ok t =>
          rw [hc] at h
          simp only [pure, Except.pure] at h
          cases hr : applyUpdaters o rest with
          | error e =>
              rw [hr] at h
              cases h
          | ok restParts =>
              rw [hr] at h
              simp only [Except.ok.injEq] at h
              subst h
              intro k hk
              have h1 : restParts.lookup k = none :=
                ih (fun v hv => hus v (List.mem_cons_of_mem _ hv)) hr k hk
              have hbe : (k == "orderTotal") = false := by simpa using hk
              have h2 : List.lookup k [("orderTotal", Value.vNum t)] = none := by
                simp [List.lookup, hbe]
              rw [lookup_mergeFields, h1, h2]
              rfl

theorem updateProperties_ok_lookup {o o' : Obj}
    (h : updateProperties true orderUpdaters o = .ok o') :
    (∀ k, k ≠ "orderTotal" → o'.fields.lookup k = o.fields.lookup k) ∧
      o'.prev = o.prev ∧ o'.postMixins = o.postMixins := by
  simp only [updateProperties, if_true, bind, Except.bind] at h
  cases ha : applyUpdaters o (orderUpdaters.filter fun u => truthy (getField o u.propKey)) with
  | error e =>
      rw [ha] at h
      cases h
  | ok upd =>
      rw [ha] at h
      simp only [pure, Except.pure, Except.ok.injEq] at h
      subst h
      have hupd : ∀ k, k ≠ "orderTotal" → upd.lookup k = none := by
        refine applyUpdaters_recalc_lookup ?_ ha
        intro u hu
        have := (List.mem_filter.mp hu).1
        simp only [orderUpdaters, List.mem_singleton] at this
        rw [this]
      refine ⟨?_, ?_, ?_⟩
      · intro k hk
        rw [withFields_fields, lookup_mergeFields, hupd k hk, updateMixins_fields]
        rfl
      · rw [withFields_prev, updateMixins_prev]
      · rw [withFields_postMixins, updateMixins_pre_postMixins]

theorem checkItems_ok {items : Value} {l : List OrderItem}
    (h : checkItems items = .ok l) :
    items = .vItems l ∧ truthy items = true := by
  unfold checkItems at h
  split at h
  · exact absurd h (by simp)
  · split at h
    · split at h
      · cases h
        exact ⟨rfl, rfl⟩
      · cases h
    · cases h


end MicroLib

namespace MicroLib

theorem MAXORDER_eq : MAXORDER = 99999.99 := by norm_num [MAXORDER]

theorem MAXORDER_ne_zero : MAXORDER ≠ 0 := by norm_num [MAXORDER]

theorem one_lt_MAXORDER : (1 : ℚ) < MAXORDER := by norm_num [MAXORDER]

/-- C2: evaluation of the status-change check of the Order model file at
the claim's edges.  Four of the five illegal edges throw
`invalid status change` and an unchanged status is accepted, but the
claimed edge SHIPPING→APPROVED is accepted by the model file's
`statusChangeValid` — its third edge reads `orderStatus.APPROVED`
(a property of the string constant `'orderStatus'`, i.e. `undefined`)
instead of `OrderStatus.APPROVED` — while the duplicated service-local
copy of the same function rejects it, as the claim (and the comment above
the model file's edge table) demands. -/
theorem statusChange_edges_evaluation :
    statusChangeValid (withPrev "SHIPPING") (.vStr "APPROVED") = .ok true ∧
    statusChangeValidDup (withPrev "SHIPPING") (.vStr "APPROVED") =
      .error "invalid status change" ∧
    statusChangeValid (withPrev "APPROVED") (.vStr "PENDING") =
      .error "invalid status change" ∧
    statusChangeValid (withPrev "SHIPPING") (.vStr "PENDING") =
      .error "invalid status change" ∧
    statusChangeValid (withPrev "PENDING") (.vStr "SHIPPING") =
      .error "invalid status change" ∧
    statusChangeValid (withPrev "PENDING") (.vStr "COMPLETE") =
      .error "invalid status change" ∧
    statusChangeValid (withPrev "SHIPPING") (.vStr "SHIPPING") = .ok true :=
  ⟨rfl, rfl, rfl, rfl, rfl, rfl, rfl⟩

/-- C6: evaluation of the require guard configured with
`requiredForCompletion(proofOfDelivery)`.  When the proposed status is
`COMPLETE` and `proofOfDelivery` is absent the guard fails naming it, and
with `proofOfDelivery` supplied it passes — but for a non-`COMPLETE`
proposed status the guard STILL fails (with an empty key list in the
message): the key-producing function returns `undefined` (second
conjunct), yet `requireProperties` keeps that `undefined` as a key, looks
up `o["undefined"]`, finds it falsy and throws, contrary to the claim
that no key means no requirement. -/
theorem requiredForCompletion_evaluation :
    requireProperties [.requiredForCompletion "proofOfDelivery"]
      (.mk [("orderStatus", .vStr "SHIPPING")] none none none) =
      .error "missing required properties: " ∧
    evalRequiredForCompletion (.mk [("orderStatus", .vStr "SHIPPING")] none none none)
      "proofOfDelivery" = none ∧
    requireProperties [.requiredForCompletion "proofOfDelivery"]
      (.mk [("orderStatus", .vStr "COMPLETE")] none none none) =
      .error "missing required properties: proofOfDelivery" ∧
    requireProperties [.requiredForCompletion "proofOfDelivery"]
      (.mk [("orderStatus", .vStr "COMPLETE"), ("proofOfDelivery", .vStr "sig.img")]
        none none none) =
      .ok (.mk [("orderStatus", .vStr "COMPLETE"), ("proofOfDelivery", .vStr "sig.img")]
        none none none) :=
  ⟨rfl, rfl, rfl, rfl⟩

/-- C7: applying the Order's required-properties guard to a creation
input that supplies `customerInfo`, `orderItems`, `creditCardNumber` and
`shippingAddress` but omits `billingAddress` throws — but the message is
`missing required properties: billingAddress,` with a trailing empty
element: `requiredForCompletion(proofOfDelivery)` returns `undefined`
(the input has no `orderStatus`), `requireProperties` treats that
`undefined` as a further missing key, and the array-to-string join
renders it as an empty string.  The repo's own test
(`test/services/order-service-local.js`) asserts the exact message
`missing required properties: billingAddress`, which is what the claim
states. -/
theorem createOrder_missing_billing_evaluation :
    requireProperties orderRequiredKeys
      (.mk [("customerInfo", .vStr "user1"),
            ("orderItems", .vItems [⟨"item1", 1⟩]),
            ("creditCardNumber", .vStr "378282246310005"),
            ("shippingAddress", .vStr "9612 Park Ave S")] none none none) =
      .error "missing required properties: billingAddress," := rfl

/-- C5 (amended): every guard of the library except `require`
self-registers on first use: `freeze`, `allow`, `update`, `encrypt` and
`hash` attach a descriptor under their stable logical name to the
object's hidden pre-phase mixin set, and `validate` to its post-phase
set, so those guards re-run automatically on subsequent updates;
`requireProperties`, however, contains no `updateMixins` call and returns
the object with its mixin sets untouched. -/
theorem guards_self_register :
    (freezeProperties false [.lit "x"] xObj).map
        (fun o => (o.preMixins.getD []).lookup "freezeProperties") =
      .ok (some (.freezeProps true [.lit "x"])) ∧
    (allowProperties false [.lit "x"] xObj).map
        (fun o => (o.preMixins.getD []).lookup "allowProperties") =
      .ok (some (.allowProps true [.lit "x"])) ∧
    (updateProperties false [⟨"orderItems", .recalcTotal⟩] xObj).map
        (fun o => (o.preMixins.getD []).lookup "updateProperties") =
      .ok (some (.updateProps true [⟨"orderItems", .recalcTotal⟩])) ∧
    (encryptProperties [.lit "x"] xObj).map
        (fun o => (o.preMixins.getD []).lookup "encryptProperties") =
      .ok (some (.encryptProps [.lit "x"])) ∧
    (hashPasswords [.lit "x"] xObj).map
        (fun o => (o.preMixins.getD []).lookup "hashPasswords") =
      .ok (some (.hashPwds [.lit "x"])) ∧
    (validateProperties [] xObj).map
        (fun o => (o.postMixins.getD []).lookup "validateProperties") =
      .ok (some (.validateProps [])) ∧
    (requireProperties [.lit "x"] xObj).map Obj.preMixins = .ok none :=
  ⟨rfl, rfl, rfl, rfl, rfl, rfl, rfl⟩

/-- C5 (counterexample): the require guard, applied for the first time to
an object satisfying it, returns the object with NO pre-phase mixin set
at all — no descriptor named after the guard is registered, refuting the
claim's "for every guard in the Guard Library (require, ...)". -/
theorem requireProperties_registers_nothing :
    (requireProperties [.lit "x"] xObj).map Obj.preMixins = .ok none := rfl

/-- C4 (amended): the `maxnum` check on the merged snapshot is strict:
a truthy `orderTotal` of `q` fails validation (naming `orderTotal`) iff
`q < 99999.99` does NOT hold — in particular a total of exactly
`99999.99` fails — and passes whenever `q < 99999.99`. -/
theorem orderTotal_maxnum_strict (q : ℚ) (p : Obj) :
    (q ≠ 0 → ¬ q < MAXORDER →
      validateProperties orderValidations
        (.mk [("orderTotal", .vNum q)] (some p) none none) =
        .error "invalid value for orderTotal") ∧
    (q < MAXORDER →
      validateProperties orderValidations
        (.mk [("orderTotal", .vNum q)] (some p) none none) =
        .ok (updateMixins .post (.mk [("orderTotal", .vNum q)] (some p) none none)
          "validateProperties" (.validateProps orderValidations))) := by
  constructor
  · intro hq hlt
    simp [validateProperties, collectInvalid, validatorIsValid, orderValidations,
      getField, truthy, maxnumTest, hq, hlt, bind, Except.bind, pure, Except.pure,
      Obj.fields, List.lookup]
    rfl
  · intro hlt
    by_cases hq : q = 0
    · subst hq
      simp [validateProperties, collectInvalid, validatorIsValid, orderValidations,
        getField, truthy, bind, Except.bind, pure, Except.pure, Obj.fields, List.lookup]
    · simp [validateProperties, collectInvalid, validatorIsValid, orderValidations,
        getField, truthy, maxnumTest, hq, hlt, bind, Except.bind, pure, Except.pure,
        Obj.fields, List.lookup]

/-- C4 (witness): the boundary theorem applied at the concrete totals
`99999.99` (fails) and `1` (passes). -/
theorem orderTotal_maxnum_strict_witness :
    validateProperties orderValidations
      (.mk [("orderTotal", .vNum MAXORDER)] (some (.mk [] none none none)) none none) =
      .error "invalid value for orderTotal" ∧
    validateProperties orderValidations
      (.mk [("orderTotal", .vNum 1)] (some (.mk [] none none none)) none none) =
      .ok (updateMixins .post
        (.mk [("orderTotal", .vNum 1)] (some (.mk [] none none none)) none none)
        "validateProperties" (.validateProps orderValidations)) :=
  ⟨(orderTotal_maxnum_strict MAXORDER (.mk [] none none none)).1 MAXORDER_ne_zero
      (lt_irrefl MAXORDER),
   (orderTotal_maxnum_strict 1 (.mk [] none none none)).2 one_lt_MAXORDER⟩

/-- C4 (counterexample): a merged snapshot whose `orderTotal` is exactly
`99999.99` — which is less than or equal to `99999.99`, so the claim says
it passes the maxnum check — fails validation naming `orderTotal`,
because the source's `maxnum` test is the strict comparison
`v > propVal`. -/
theorem orderTotal_at_limit_rejected :
    MAXORDER ≤ 99999.99 ∧
    validateProperties orderValidations
      (.mk [("orderTotal", .vNum MAXORDER)] (some (.mk [] none none none)) none none) =
      .error "invalid value for orderTotal" :=
  ⟨le_of_eq MAXORDER_eq, rfl⟩

end MicroLib

namespace MicroLib

theorem lookup_eq_none_of_not_mem_keys {l : List (String × Value)} {k : String}
    (h : k ∉ l.map Prod.fst) : l.lookup k = none := by
  induction l with
  | nil => rfl
  | cons hd tl ih =>
      simp only [List.map_cons, List.mem_cons, not_or] at h
      have hne : (k == hd.1) = false := by simpa using h.1
      simp [List.lookup, hne, ih h.2]

/-- C1: atomicity of `processUpdate`: a guard failure in the pre phase,
or in the post phase after a successful pre phase, propagates as the
pipeline's own synchronous error; an erroring pipeline returns no
snapshot at all; and conversely every pipeline error is exactly the error
of one of the two phases.  (That `currentSnapshot` itself is untouched is
inherent to the embedding: the source mutates only its `changes` argument
— line 59 — never the model.) -/
theorem processUpdate_guard_failure (model changes : Obj) (e : String) :
    (preUpdates model (setPrev changes model) = .error e →
      processUpdate model changes = .error e) ∧
    (∀ upd, preUpdates model (setPrev changes model) = .ok upd →
      postPhase model (mergeObjs model upd) = .error e →
      processUpdate model changes = .error e) ∧
    (processUpdate model changes = .error e →
      (∀ s, processUpdate model changes ≠ .ok s) ∧
      (preUpdates model (setPrev changes model) = .error e ∨
       ∃ upd, preUpdates model (setPrev changes model) = .ok upd ∧
         postPhase model (mergeObjs model upd) = .error e)) := by
  refine ⟨?_, ?_, ?_⟩
  · intro hpre
    simp [processUpdate, bind, Except.bind, hpre]
  · intro upd hpre hpost
    simp [processUpdate, bind, Except.bind, hpre, hpost]
  · intro herr
    refine ⟨?_, ?_⟩
    · intro s hok
      rw [herr] at hok
      cases hok
    · cases hp : preUpdates model (setPrev changes model) with
      | error e2 =>
          left
          have hx : processUpdate model changes = .error e2 := by
            simp [processUpdate, bind, Except.bind, hp]
          rw [hx] at herr
          cases herr
          rfl
      | ok upd =>
          right
          refine ⟨upd, rfl, ?_⟩
          have hx : processUpdate model changes =
              postPhase model (mergeObjs model upd) := by
            simp [processUpdate, bind, Except.bind, hp]
          rw [← hx]
          exact herr

/-- C1 (witness): the theorem applied to a concrete model whose pre-phase
set holds a freeze guard and to changes touching the frozen key: the
guard's error propagates out of `processUpdate` unchanged. -/
theorem processUpdate_guard_failure_witness :
    processUpdate
      (.mk [("x", .vStr "1")] none
        (some [("freezeProperties", .freezeProps true [.lit "x"])]) none)
      (.mk [("x", .vStr "2")] none none none) =
      .error "cannot update readonly properties: x" :=
  (processUpdate_guard_failure
    (.mk [("x", .vStr "1")] none
      (some [("freezeProperties", .freezeProps true [.lit "x"])]) none)
    (.mk [("x", .vStr "2")] none none none)
    "cannot update readonly properties: x").1 rfl

end MicroLib

namespace MicroLib

/-- C8: with a predecessor whose `orderStatus` is any status other than
`PENDING`, a change set containing any of `orderItems`,
`creditCardNumber`, `shippingAddress` or `billingAddress` makes the
Order's freeze guard throw the immutable-property error naming the
offending key (whatever value the change proposes — only key presence
matters); and with a predecessor status of `COMPLETE` or `CANCELED`, a
change set containing `orderStatus` fails the same way. -/
theorem frozen_fields_reject (changes p : Obj) (s k : String)
    (hp : changes.prev = some p)
    (hs : getField p "orderStatus" = .vStr s) :
    (s ≠ "PENDING" →
      k ∈ ["orderItems", "creditCardNumber", "shippingAddress", "billingAddress"] →
      k ∈ objKeys changes →
      ∃ muts, freezeProperties true orderFreezeKeys changes =
          .error ("cannot update readonly properties: " ++ String.intercalate "," muts) ∧
        k ∈ muts) ∧
    ((s = "COMPLETE" ∨ s = "CANCELED") →
      "orderStatus" ∈ objKeys changes →
      ∃ muts, freezeProperties true orderFreezeKeys changes =
          .error ("cannot update readonly properties: " ++ String.intercalate "," muts) ∧
        "orderStatus" ∈ muts) := by
  have hprev : prevOrderStatus changes = .vStr s := by
    simp [prevOrderStatus, hp, hs]
  constructor
  · intro hsne hk hmem
    refine freezeProperties_error hmem ?_
    simp only [getDynamicProps, orderFreezeKeys, List.map_cons, List.map_nil,
      evalPropKey, evalFreezeOnApproval, evalFreezeOnCompletion, hprev]
    have hcond : ¬ (Value.vStr s = Value.vStr "PENDING") := by
      simpa using hsne
    rw [if_neg hcond]
    simp only [List.mem_cons, List.mem_singleton, List.not_mem_nil, or_false] at hk
    rcases hk with hk | hk | hk | hk <;> subst hk <;> simp [hsne]
  · intro hs2 hmem
    refine freezeProperties_error hmem ?_
    simp only [getDynamicProps, orderFreezeKeys, List.map_cons, List.map_nil,
      evalPropKey, evalFreezeOnApproval, evalFreezeOnCompletion, hprev]
    have hcond : (Value.vStr s = Value.vStr "COMPLETE" ∨ Value.vStr s = Value.vStr "CANCELED") := by
      rcases hs2 with h | h <;> subst h <;> simp
    rw [if_pos hcond]
    simp

/-- C8 (witness): the theorem applied to concrete updates: a change to
`shippingAddress` with previous status `APPROVED`, and a change to
`orderStatus` with previous status `COMPLETE`. -/
theorem frozen_fields_reject_witness :
    (∃ muts, freezeProperties true orderFreezeKeys
        (.mk [("shippingAddress", .vStr "new addr")] (some (prevWith "APPROVED")) none none) =
        .error ("cannot update readonly properties: " ++ String.intercalate "," muts) ∧
      "shippingAddress" ∈ muts) ∧
    (∃ muts, freezeProperties true orderFreezeKeys
        (.mk [("orderStatus", .vStr "PENDING")] (some (prevWith "COMPLETE")) none none) =
        .error ("cannot update readonly properties: " ++ String.intercalate "," muts) ∧
      "orderStatus" ∈ muts) :=
  ⟨(frozen_fields_reject
      (.mk [("shippingAddress", .vStr "new addr")] (some (prevWith "APPROVED")) none none)
      (prevWith "APPROVED") "APPROVED" "shippingAddress" rfl rfl).1
      (by decide) (by decide) (by decide),
   (frozen_fields_reject
      (.mk [("orderStatus", .vStr "PENDING")] (some (prevWith "COMPLETE")) none none)
      (prevWith "COMPLETE") "COMPLETE" "orderStatus" rfl rfl).2
      (Or.inl rfl) (by decide)⟩

end MicroLib

namespace MicroLib

theorem composeMixins_orderPre (o : Obj) :
    composeMixins orderPreMixins o =
      (do
        let o1 ← freezeProperties true orderFreezeKeys o
        let o2 ← updateProperties true orderUpdaters o1
        let o3 ← allowProperties true orderAllowKeys o2
        pure o3) := rfl

theorem composeMixins_orderPost (o : Obj) :
    composeMixins orderPostMixins o = validateProperties orderValidations o := by
  cases h : validateProperties orderValidations o <;>
    simp [composeMixins, runMixin, orderPostMixins, bind, Except.bind, h, pure,
      Except.pure]

/-- C10: `customerInfo` is a literal, unconditional entry of the Order's
freeze guard: every change set containing `customerInfo` makes the guard
throw the immutable-property error naming it, for any predecessor
snapshot whatsoever — its `orderStatus` (PENDING included) is never
consulted for this key; consequently, any successful `processUpdate` of
an Order-configured model leaves the model's `customerInfo` unchanged in
the returned snapshot. -/
theorem customerInfo_always_frozen :
    (∀ (changes p : Obj), changes.prev = some p →
      "customerInfo" ∈ objKeys changes →
      ∃ muts, freezeProperties true orderFreezeKeys changes =
          .error ("cannot update readonly properties: " ++ String.intercalate "," muts) ∧
        "customerInfo" ∈ muts) ∧
    (∀ (mf : List (String × Value)) (changes s : Obj),
      processUpdate (.mk mf none (some orderPreMixins) (some orderPostMixins)) changes =
        .ok s →
      s.fields.lookup "customerInfo" = mf.lookup "customerInfo") := by
  constructor
  · intro changes p _ hmem
    refine freezeProperties_error hmem ?_
    simp [getDynamicProps, orderFreezeKeys, evalPropKey]
  · intro mf changes s h
    simp only [processUpdate, preUpdates, Obj.preMixins, composeMixins_orderPre,
      bind, Except.bind] at h
    cases hf : freezeProperties true orderFreezeKeys
        (setPrev changes (.mk mf none (some orderPreMixins) (some orderPostMixins))) with
    | error e =>
        rw [hf] at h
        cases h
    | ok o1 =>
        rw [hf] at h
        dsimp only at h
        obtain ⟨hf1, _, _, hfkeys⟩ := freezeProperties_ok hf
        cases hu : updateProperties true orderUpdaters o1 with
        | error e =>
            rw [hu] at h
            cases h
        | ok o2 =>
            rw [hu] at h
            dsimp only at h
            obtain ⟨hu1, _, _⟩ := updateProperties_ok_lookup hu
            cases hl : allowProperties true orderAllowKeys o2 with
            | error e =>
                rw [hl] at h
                cases h
            | ok o3 =>
                rw [hl] at h
                simp only [pure, Except.pure] at h
                obtain ⟨hl1, _, _⟩ := allowProperties_ok hl
                rw [show postPhase
                    (Obj.mk mf none (some orderPreMixins) (some orderPostMixins))
                    (mergeObjs (Obj.mk mf none (some orderPreMixins) (some orderPostMixins)) o3) =
                    composeMixins orderPostMixins
                      (mergeObjs (Obj.mk mf none (some orderPreMixins) (some orderPostMixins)) o3)
                  from rfl, composeMixins_orderPost] at h
                obtain ⟨hv1, _, _⟩ := validateProperties_ok h
                have hno : "customerInfo" ∉ objKeys
                    (setPrev changes
                      (.mk mf none (some orderPreMixins) (some orderPostMixins))) := by
                  intro hmem
                  have := hfkeys _ hmem
                  simp [getDynamicProps, orderFreezeKeys, evalPropKey] at this
                have hnone : o3.fields.lookup "customerInfo" = none := by
                  rw [hl1, hu1 "customerInfo" (by decide), hf1]
                  exact lookup_eq_none_of_not_mem_keys hno
                rw [hv1]
                rw [show (mergeObjs (Obj.mk mf none (some orderPreMixins)
                    (some orderPostMixins)) o3).fields = mergeFields mf o3.fields from rfl]
                rw [lookup_mergeFields, hnone]
                rfl

/-- C10 (witness): the theorem applied concretely: a change containing
`customerInfo` while the order is still `PENDING` is rejected by the
freeze guard, and a successful empty update of a one-field model keeps
`customerInfo`. -/
theorem customerInfo_always_frozen_witness :
    (∃ muts, freezeProperties true orderFreezeKeys
        (.mk [("customerInfo", .vStr "user2")] (some (prevWith "PENDING")) none none) =
        .error ("cannot update readonly properties: " ++ String.intercalate "," muts) ∧
      "customerInfo" ∈ muts) ∧
    ((processUpdate
        (.mk [("customerInfo", .vStr "user1")] none (some orderPreMixins)
          (some orderPostMixins))
        (.mk [] none none none)).map (fun s => s.fields.lookup "customerInfo") =
      .ok (some (.vStr "user1"))) := by
  constructor
  · exact (customerInfo_always_frozen.1
      (.mk [("customerInfo", .vStr "user2")] (some (prevWith "PENDING")) none none)
      (prevWith "PENDING") rfl (by decide))
  · have h : processUpdate
        (.mk [("customerInfo", .vStr "user1")] none (some orderPreMixins)
          (some orderPostMixins))
        (.mk [] none none none) =
        .ok (mergeObjs
          (.mk [("customerInfo", .vStr "user1")] none (some orderPreMixins)
            (some orderPostMixins))
          (.mk [] (some (.mk [("customerInfo", .vStr "user1")] none (some orderPreMixins)
            (some orderPostMixins))) (some orderPreMixins) none)) := rfl
    have h2 := customerInfo_always_frozen.2 [("customerInfo", .vStr "user1")]
      (.mk [] none none none) _ h
    rw [h, Except.map, h2]
    rfl

end MicroLib

namespace MicroLib

theorem collectInvalid_order_ok (o pm : Obj) (v t : Value)
    (hp : o.prev = some pm)
    (hv : getField o "orderStatus" = v)
    (hpm : getField pm "orderStatus" = v)
    (ht : getField o "orderTotal" = t)
    (hstatus : truthy v = true → v ∈ orderStatusValues)
    (htotal : truthy t = true → maxnumTest MAXORDER t = true) :
    collectInvalid o orderValidations = .ok [] := by
  have hpo : prevOrderStatus o = v := by simp [prevOrderStatus, hp, hpm]
  have hpoo : prevOrderStatusOpt o = v := by simp [prevOrderStatusOpt, hp, hpm]
  have hval1 : truthy v = true →
      validatorIsValid
        { propKey := "orderStatus", values := some orderStatusValues,
          isValid := some .statusChangeValid } o v = .ok true := by
    intro hv1
    have hm := hstatus hv1
    have hany : invalidStatusChanges.any (fun e => invalidStatusChange e o v) = false := by
      have hm2 := hm
      simp only [orderStatusValues, List.mem_cons, List.not_mem_nil, or_false] at hm2
      rcases hm2 with h | h | h | h | h <;> subst h <;>
        simp [invalidStatusChanges, invalidStatusChange, hpo]
    have hsc : statusChangeValid o v = .ok true := by
      simp [statusChangeValid, statusChangeValidWith, hpoo, hpo, hv1, hany]
    simp [validatorIsValid, runValidFn, hsc, hm, bind, Except.bind, pure, Except.pure]
  have hval2 : truthy t = true →
      validatorIsValid { propKey := "orderTotal", maxnum := some MAXORDER } o t =
        .ok true := by
    intro ht1
    have hm2 := htotal ht1
    simp [validatorIsValid, hm2, bind, Except.bind, pure, Except.pure]
  by_cases hv1 : truthy v = true <;> by_cases ht1 : truthy t = true
  · simp [collectInvalid, orderValidations, hv, ht, hv1, ht1, hval1 hv1, hval2 ht1,
      bind, Except.bind, pure, Except.pure]
  · simp only [Bool.not_eq_true] at ht1
    simp [collectInvalid, orderValidations, hv, ht, hv1, ht1, hval1 hv1,
      bind, Except.bind, pure, Except.pure]
  · simp only [Bool.not_eq_true] at hv1
    simp [collectInvalid, orderValidations, hv, ht, hv1, ht1, hval2 ht1,
      bind, Except.bind, pure, Except.pure]
  · simp only [Bool.not_eq_true] at hv1 ht1
    simp [collectInvalid, orderValidations, hv, ht, hv1, ht1,
      bind, Except.bind, pure, Except.pure]

end MicroLib

namespace MicroLib

/-- C9: empty-update idempotence for an Order-configured snapshot: if the
snapshot's own fields pass its post-phase validations (which holds of
every snapshot the pipeline or the validated factory produced: a truthy
`orderStatus` is a member of the status enum, and a truthy `orderTotal`
passes the maxnum bound), then `processUpdate(S, {})` succeeds and the
returned snapshot's visible fields are exactly those of `S` — the only
differences are in the hidden attachments (mixin re-attachment and the
history pointer). -/
theorem processUpdate_empty_idempotent (mf : List (String × Value))
    (hstatus : truthy ((mf.lookup "orderStatus").getD .vUndefined) = true →
      ((mf.lookup "orderStatus").getD .vUndefined) ∈ orderStatusValues)
    (htotal : truthy ((mf.lookup "orderTotal").getD .vUndefined) = true →
      maxnumTest MAXORDER ((mf.lookup "orderTotal").getD .vUndefined) = true) :
    ∃ s, processUpdate (.mk mf none (some orderPreMixins) (some orderPostMixins))
        (.mk [] none none none) = .ok s ∧ s.fields = mf := by
  have hpre : preUpdates (.mk mf none (some orderPreMixins) (some orderPostMixins))
      (setPrev (.mk [] none none none)
        (.mk mf none (some orderPreMixins) (some orderPostMixins))) =
      .ok (.mk [] (some (.mk mf none (some orderPreMixins) (some orderPostMixins)))
        (some orderPreMixins) none) := rfl
  have hmerge : mergeObjs (.mk mf none (some orderPreMixins) (some orderPostMixins))
      (.mk [] (some (.mk mf none (some orderPreMixins) (some orderPostMixins)))
        (some orderPreMixins) none) =
      .mk mf (some (.mk mf none (some orderPreMixins) (some orderPostMixins)))
        (some orderPreMixins) (some orderPostMixins) := by
    rw [show mergeObjs (.mk mf none (some orderPreMixins) (some orderPostMixins))
        (.mk [] (some (.mk mf none (some orderPreMixins) (some orderPostMixins)))
          (some orderPreMixins) none) =
        Obj.mk (mergeFields mf [])
          (some (.mk mf none (some orderPreMixins) (some orderPostMixins)))
          (some orderPreMixins) (some orderPostMixins) from rfl, mergeFields_nil]
  have hcoll : collectInvalid
      (.mk mf (some (.mk mf none (some orderPreMixins) (some orderPostMixins)))
        (some orderPreMixins) (some orderPostMixins)) orderValidations = .ok [] :=
    collectInvalid_order_ok _ (.mk mf none (some orderPreMixins) (some orderPostMixins))
      ((mf.lookup "orderStatus").getD .vUndefined) ((mf.lookup "orderTotal").getD .vUndefined)
      rfl rfl rfl rfl hstatus htotal
  have hvalp : validateProperties orderValidations
      (.mk mf (some (.mk mf none (some orderPreMixins) (some orderPostMixins)))
        (some orderPreMixins) (some orderPostMixins)) =
      .ok (.mk mf (some (.mk mf none (some orderPreMixins) (some orderPostMixins)))
        (some orderPreMixins) (some orderPostMixins)) := by
    simp only [validateProperties, hcoll, bind, Except.bind]
    rfl
  refine ⟨.mk mf (some (.mk mf none (some orderPreMixins) (some orderPostMixins)))
    (some orderPreMixins) (some orderPostMixins), ?_, rfl⟩
  simp only [processUpdate, bind, Except.bind, hpre, hmerge]
  rw [show postPhase (.mk mf none (some orderPreMixins) (some orderPostMixins))
      (.mk mf (some (.mk mf none (some orderPreMixins) (some orderPostMixins)))
        (some orderPreMixins) (some orderPostMixins)) =
      composeMixins orderPostMixins
        (.mk mf (some (.mk mf none (some orderPreMixins) (some orderPostMixins)))
          (some orderPreMixins) (some orderPostMixins)) from rfl,
    composeMixins_orderPost, hvalp]

/-- C9 (witness): the theorem applied to a concrete PENDING snapshot with
two domain fields; the empty update succeeds and returns the same visible
fields. -/
theorem processUpdate_empty_idempotent_witness :
    ∃ s, processUpdate
        (.mk [("orderStatus", .vStr "PENDING"), ("customerInfo", .vStr "user1")] none
          (some orderPreMixins) (some orderPostMixins))
        (.mk [] none none none) = .ok s ∧
      s.fields = [("orderStatus", .vStr "PENDING"), ("customerInfo", .vStr "user1")] :=
  processUpdate_empty_idempotent
    [("orderStatus", .vStr "PENDING"), ("customerInfo", .vStr "user1")]
    (fun _ => by decide) (fun h => absurd h (by decide))

end MicroLib

namespace MicroLib

/-- C3: the derived total.  At creation, the factory's snapshot carries
`orderTotal = sum of the items' prices`; and an update of an
Order-configured model (previous status `PENDING`, so the freeze guard
lets `orderItems` through) whose change set is `{orderItems: I'}`, with
`I'` a valid item sequence whose sum passes (or skips) the maxnum bound,
succeeds and yields a snapshot whose `orderTotal` is the sum of the
prices in `I'` — recomputed by the update guard, never taken from the
caller. -/
theorem orderTotal_derived
    (custInfo items ccn billAddr sigR shipAddr payAuth orderNo : Value)
    (l : List OrderItem) (hitems : checkItems items = .ok l) :
    (∃ fs, createOrderFields custInfo items ccn billAddr sigR shipAddr payAuth orderNo =
        .ok fs ∧ fs.lookup "orderTotal" = some (.vNum (sumPrices l))) ∧
    (∀ (mf : List (String × Value)),
      mf.lookup "orderStatus" = some (.vStr "PENDING") →
      (sumPrices l = 0 ∨ sumPrices l < MAXORDER) →
      ∃ s, processUpdate (.mk mf none (some orderPreMixins) (some orderPostMixins))
          (.mk [("orderItems", items)] none none none) = .ok s ∧
        getField s "orderTotal" = .vNum (sumPrices l)) := by
  have hcalc : calcTotal items = .ok (sumPrices l) := by
    simp [calcTotal, hitems, bind, Except.bind, pure, Except.pure]
  have htruthy : truthy items = true := (checkItems_ok hitems).2
  constructor
  · refine ⟨[("customerInfo", custInfo), ("orderItems", items),
      ("creditCardNumber", ccn), ("billingAddress", billAddr),
      ("signatureRequired", sigR), ("proofOfDelivery", .vNull),
      ("shippingAddress", shipAddr), ("paymentAuthorization", payAuth),
      ("orderTotal", .vNum (sumPrices l)), ("orderStatus", .vStr "PENDING"),
      ("orderNo", orderNo)], ?_, ?_⟩
    · simp [createOrderFields, hitems, hcalc, bind, Except.bind, pure, Except.pure]
    · rfl
  · intro mf hm hsum
    have hprevS : prevOrderStatus
        (.mk [("orderItems", items)]
          (some (.mk mf none (some orderPreMixins) (some orderPostMixins))) none none) =
        .vStr "PENDING" := by
      simp [prevOrderStatus, Obj.prev, getField, Obj.fields, hm]
    have hkeys : getDynamicProps
        (.mk [("orderItems", items)]
          (some (.mk mf none (some orderPreMixins) (some orderPostMixins))) none none)
        orderFreezeKeys = [some "customerInfo", none, none, none, none, none] := by
      simp [getDynamicProps, orderFreezeKeys, evalPropKey, evalFreezeOnApproval,
        evalFreezeOnCompletion, hprevS]
    have hfreeze : freezeProperties true orderFreezeKeys
        (.mk [("orderItems", items)]
          (some (.mk mf none (some orderPreMixins) (some orderPostMixins))) none none) =
        .ok (.mk [("orderItems", items)]
          (some (.mk mf none (some orderPreMixins) (some orderPostMixins)))
          (some [("freezeProperties", .freezeProps true orderFreezeKeys)]) none) := by
      simp only [freezeProperties, hkeys]
      rfl
    have hupdate : updateProperties true orderUpdaters
        (.mk [("orderItems", items)]
          (some (.mk mf none (some orderPreMixins) (some orderPostMixins)))
          (some [("freezeProperties", .freezeProps true orderFreezeKeys)]) none) =
        .ok (.mk [("orderItems", items), ("orderTotal", .vNum (sumPrices l))]
          (some (.mk mf none (some orderPreMixins) (some orderPostMixins)))
          (some [("freezeProperties", .freezeProps true orderFreezeKeys),
                 ("updateProperties", .updateProps true orderUpdaters)]) none) := by
      simp only [updateProperties, orderUpdaters, List.filter,
        show getField (.mk [("orderItems", items)]
          (some (.mk mf none (some orderPreMixins) (some orderPostMixins)))
          (some [("freezeProperties", .freezeProps true orderFreezeKeys)]) none)
          "orderItems" = items from rfl,
        htruthy, applyUpdaters, runUpdaterFn, hcalc, bind, Except.bind, pure, Except.pure]
      rfl
    have hallow : allowProperties true orderAllowKeys
        (.mk [("orderItems", items), ("orderTotal", .vNum (sumPrices l))]
          (some (.mk mf none (some orderPreMixins) (some orderPostMixins)))
          (some [("freezeProperties", .freezeProps true orderFreezeKeys),
                 ("updateProperties", .updateProps true orderUpdaters)]) none) =
        .ok (.mk [("orderItems", items), ("orderTotal", .vNum (sumPrices l))]
          (some (.mk mf none (some orderPreMixins) (some orderPostMixins)))
          (some orderPreMixins) none) := rfl
    have hpre : preUpdates (.mk mf none (some orderPreMixins) (some orderPostMixins))
        (setPrev (.mk [("orderItems", items)] none none none)
          (.mk mf none (some orderPreMixins) (some orderPostMixins))) =
        .ok (.mk [("orderItems", items), ("orderTotal", .vNum (sumPrices l))]
          (some (.mk mf none (some orderPreMixins) (some orderPostMixins)))
          (some orderPreMixins) none) := by
      rw [show preUpdates (.mk mf none (some orderPreMixins) (some orderPostMixins))
          (setPrev (.mk [("orderItems", items)] none none none)
            (.mk mf none (some orderPreMixins) (some orderPostMixins))) =
          composeMixins orderPreMixins
            (.mk [("orderItems", items)]
              (some (.mk mf none (some orderPreMixins) (some orderPostMixins))) none none)
        from rfl, composeMixins_orderPre]
      simp only [hfreeze, hupdate, hallow, bind, Except.bind, pure, Except.pure]
    have hvfield : getField
        (mergeObjs (.mk mf none (some orderPreMixins) (some orderPostMixins))
          (.mk [("orderItems", items), ("orderTotal", .vNum (sumPrices l))]
            (some (.mk mf none (some orderPreMixins) (some orderPostMixins)))
            (some orderPreMixins) none)) "orderStatus" = .vStr "PENDING" := by
      simp only [getField, mergeObjs, Obj.fields, lookup_mergeFields]
      simp [List.lookup, hm]
    have htfield : getField
        (mergeObjs (.mk mf none (some orderPreMixins) (some orderPostMixins))
          (.mk [("orderItems", items), ("orderTotal", .vNum (sumPrices l))]
            (some (.mk mf none (some orderPreMixins) (some orderPostMixins)))
            (some orderPreMixins) none)) "orderTotal" = .vNum (sumPrices l) := by
      simp only [getField, mergeObjs, Obj.fields, lookup_mergeFields]
      simp [List.lookup]
    have hcoll : collectInvalid
        (mergeObjs (.mk mf none (some orderPreMixins) (some orderPostMixins))
          (.mk [("orderItems", items), ("orderTotal", .vNum (sumPrices l))]
            (some (.mk mf none (some orderPreMixins) (some orderPostMixins)))
            (some orderPreMixins) none)) orderValidations = .ok [] := by
      refine collectInvalid_order_ok _
        (.mk mf none (some orderPreMixins) (some orderPostMixins))
        (.vStr "PENDING") (.vNum (sumPrices l)) rfl hvfield ?_ htfield ?_ ?_
      · simp [getField, Obj.fields, hm]
      · intro _
        decide
      · intro hq
        rcases hsum with h0 | hlt
        · rw [h0] at hq
          exact absurd hq (by decide)
        · simp [maxnumTest, hlt]
    have hvalp : validateProperties orderValidations
        (mergeObjs (.mk mf none (some orderPreMixins) (some orderPostMixins))
          (.mk [("orderItems", items), ("orderTotal", .vNum (sumPrices l))]
            (some (.mk mf none (some orderPreMixins) (some orderPostMixins)))
            (some orderPreMixins) none)) =
        .ok (mergeObjs (.mk mf none (some orderPreMixins) (some orderPostMixins))
          (.mk [("orderItems", items), ("orderTotal", .vNum (sumPrices l))]
            (some (.mk mf none (some orderPreMixins) (some orderPostMixins)))
            (some orderPreMixins) none)) := by
      simp only [validateProperties, hcoll, bind, Except.bind]
      rfl
    refine ⟨mergeObjs (.mk mf none (some orderPreMixins) (some orderPostMixins))
      (.mk [("orderItems", items), ("orderTotal", .vNum (sumPrices l))]
        (some (.mk mf none (some orderPreMixins) (some orderPostMixins)))
        (some orderPreMixins) none), ?_, htfield⟩
    simp only [processUpdate, bind, Except.bind, hpre]
    rw [show postPhase (.mk mf none (some orderPreMixins) (some orderPostMixins))
        (mergeObjs (.mk mf none (some orderPreMixins) (some orderPostMixins))
          (.mk [("orderItems", items), ("orderTotal", .vNum (sumPrices l))]
            (some (.mk mf none (some orderPreMixins) (some orderPostMixins)))
            (some orderPreMixins) none)) =
        composeMixins orderPostMixins
          (mergeObjs (.mk mf none (some orderPreMixins) (some orderPostMixins))
            (.mk [("orderItems", items), ("orderTotal", .vNum (sumPrices l))]
              (some (.mk mf none (some orderPreMixins) (some orderPostMixins)))
              (some orderPreMixins) none))
      from rfl, composeMixins_orderPost, hvalp]

end MicroLib

namespace MicroLib

theorem sumPrices_scenario :
    sumPrices [⟨"item1", 90.22⟩, ⟨"item2", 87.6⟩] = 177.82 ∧
    sumPrices [⟨"item1", (90.22 : ℚ)⟩, ⟨"item2", 87.6⟩] < MAXORDER := by
  norm_num [sumPrices, MAXORDER]

/-- C3 (witness): the theorem applied to the spec's end-to-end scenario
items `[{item1, 90.22}, {item2, 87.60}]`: the factory snapshot and a
pipeline update both carry `orderTotal = sum` (and the sum is `177.82`,
by `sumPrices_scenario`). -/
theorem orderTotal_derived_witness :
    (∃ fs, createOrderFields (.vStr "user1")
        (.vItems [⟨"item1", 90.22⟩, ⟨"item2", 87.6⟩]) (.vStr "378282246310005")
        (.vStr "9612 Park Ave S") (.vBool false) (.vStr "9612 Park Ave S")
        (.vStr "payAuth") (.vStr "order1") = .ok fs ∧
      fs.lookup "orderTotal" =
        some (.vNum (sumPrices [⟨"item1", 90.22⟩, ⟨"item2", 87.6⟩]))) ∧
    (∃ s, processUpdate
        (.mk [("orderStatus", .vStr "PENDING")] none (some orderPreMixins)
          (some orderPostMixins))
        (.mk [("orderItems", .vItems [⟨"item1", 90.22⟩, ⟨"item2", 87.6⟩])]
          none none none) = .ok s ∧
      getField s "orderTotal" =
        .vNum (sumPrices [⟨"item1", 90.22⟩, ⟨"item2", 87.6⟩])) :=
  ⟨(orderTotal_derived (.vStr "user1") (.vItems [⟨"item1", 90.22⟩, ⟨"item2", 87.6⟩])
      (.vStr "378282246310005") (.vStr "9612 Park Ave S") (.vBool false)
      (.vStr "9612 Park Ave S") (.vStr "payAuth") (.vStr "order1")
      [⟨"item1", 90.22⟩, ⟨"item2", 87.6⟩] rfl).1,
   (orderTotal_derived (.vStr "user1") (.vItems [⟨"item1", 90.22⟩, ⟨"item2", 87.6⟩])
      (.vStr "378282246310005") (.vStr "9612 Park Ave S") (.vBool false)
      (.vStr "9612 Park Ave S") (.vStr "payAuth") (.vStr "order1")
      [⟨"item1", 90.22⟩, ⟨"item2", 87.6⟩] rfl).2
      [("orderStatus", .vStr "PENDING")] rfl (Or.inr sumPrices_scenario.2)⟩

end MicroLib
